import Mathlib

/-!
# Verification of the LDSI NCD core (`src/core/ncd.rs`)

Shallow embedding of the Normalized Compression Distance module.  Texts are
Lean `String`s; the Rust code passes `input.as_bytes()` (UTF-8 bytes) to the
zstd encoder, so we model the byte view with an explicit UTF-8 encoder
`utf8Bytes`.  The external zstd library (`zstd::stream::encode_all` at the
fixed `COMPRESSION_LEVEL`) is not part of this repository; it is modelled as
an abstract backend `enc : List ℕ → Option ℕ` mapping the input bytes to the
length of the compressed output (`none` models an encoder error, the
`Err(_)` branch).  Rust `f64` arithmetic on the small size values is modelled
by exact rational arithmetic (`ℚ`).
-/

namespace LDSI

/-- UTF-8 encoding of a single Unicode scalar value, as its list of bytes
(each byte a `ℕ < 256`).  Matches the standard 1-to-4 byte encoding used by
Rust `str::as_bytes`/`str::len`. -/
def utf8Char (c : Char) : List ℕ :=
  let n := c.toNat
  if n < 0x80 then [n]
  else if n < 0x800 then [0xC0 + n / 64, 0x80 + n % 64]
  else if n < 0x10000 then [0xE0 + n / 4096, 0x80 + n / 64 % 64, 0x80 + n % 64]
  else [0xF0 + n / 262144, 0x80 + n / 4096 % 64, 0x80 + n / 64 % 64, 0x80 + n % 64]

/-- The UTF-8 byte sequence of a string: what Rust `str::as_bytes` yields
(and whose length is Rust `str::len`). -/
def utf8Bytes (s : String) : List ℕ :=
  s.data.flatMap utf8Char

/-- An abstract compression backend: the external `zstd::stream::encode_all`
at the fixed compression level, viewed as a pure function from the input
bytes to `some` (length of the compressed output), or `none` on an encoder
error. -/
def Backend : Type := List ℕ → Option ℕ

/-- Structure `NcdResult` from `src/core/ncd.rs`: score plus audit sizes. -/
structure NcdResult where
  score : ℚ
  size_a : ℕ
  size_b : ℕ
  size_combined : ℕ
  raw_size_a : ℕ
  raw_size_b : ℕ
deriving DecidableEq, Repr

/-- Function `compressed_size` from `src/core/ncd.rs`: length of the zstd-compressed
input, falling back to the raw byte length (`input.len()`) when the encoder
fails. -/
def compressed_size (enc : Backend) (input : String) : ℕ :=
  match enc (utf8Bytes input) with
  | some compressed => compressed
  | none => (utf8Bytes input).length

/-- Function `compute_ncd` from `src/core/ncd.rs`.  Rust `format!("{}{}", a, b)` is
string concatenation, `min`/`max` over `usize` are cast to `f64` (here `ℚ`),
the division is guarded by `max_c > 0.0`, and the final score is
`score.max(0.0).min(1.5)`. -/
def compute_ncd (enc : Backend) (text_a text_b : String) : NcdResult :=
  let size_a := compressed_size enc text_a
  let size_b := compressed_size enc text_b
  let combined := text_a ++ text_b
  let size_combined := compressed_size enc combined
  let min_c : ℚ := (min size_a size_b : ℕ)
  let max_c : ℚ := (max size_a size_b : ℕ)
  let score : ℚ := if max_c > 0 then ((size_combined : ℚ) - min_c) / max_c else 0
  let score := min (max score 0) (3 / 2)
  { score := score
    size_a := size_a
    size_b := size_b
    size_combined := size_combined
    raw_size_a := (utf8Bytes text_a).length
    raw_size_b := (utf8Bytes text_b).length }

/-- Function `ncd_score` from `src/core/ncd.rs`: just the score of `compute_ncd`. -/
def ncd_score (enc : Backend) (text_a text_b : String) : ℚ :=
  (compute_ncd enc text_a text_b).score

/-- Division that records, instead of silently absorbing, a zero divisor:
`none` models the undefined (`NaN`) result of `0.0 / 0.0` in `f64`. -/
def divOpt (x y : ℚ) : Option ℚ :=
  if y = 0 then none else some (x / y)

/-- Variant of `compute_ncd` in which the division is `divOpt`, so that an
unguarded division by zero would surface as `none` instead of a junk value.
Used to state that the real computation never hits an undefined division. -/
def compute_ncd_checked (enc : Backend) (text_a text_b : String) : Option NcdResult :=
  let size_a := compressed_size enc text_a
  let size_b := compressed_size enc text_b
  let combined := text_a ++ text_b
  let size_combined := compressed_size enc combined
  let min_c : ℚ := (min size_a size_b : ℕ)
  let max_c : ℚ := (max size_a size_b : ℕ)
  let raw := if max_c > 0 then divOpt ((size_combined : ℚ) - min_c) max_c else some 0
  raw.map fun r =>
    { score := min (max r 0) (3 / 2)
      size_a := size_a
      size_b := size_b
      size_combined := size_combined
      raw_size_a := (utf8Bytes text_a).length
      raw_size_b := (utf8Bytes text_b).length }

/-- Variant of `ncd_score` built on the checked computation. -/
def ncd_score_checked (enc : Backend) (text_a text_b : String) : Option ℚ :=
  (compute_ncd_checked enc text_a text_b).map NcdResult.score

/-- UTF-8 encoding turns string concatenation into byte-level concatenation;
this is the byte view of Rust `format!("{}{}", text_a, text_b)`. -/
lemma utf8Bytes_append (a b : String) :
    utf8Bytes (a ++ b) = utf8Bytes a ++ utf8Bytes b := by
  simp [utf8Bytes, String.data_append, List.flatMap_append]

/-- Clamping by `max 0` then `min c` agrees with the spec form
`max 0 (min r c)` whenever `0 ≤ c`. -/
lemma clamp_comm (r c : ℚ) (hc : 0 ≤ c) : min (max r 0) c = max 0 (min r c) := by
  rcases le_total r 0 with h | h
  · rw [max_eq_right h, min_eq_left hc]
    exact (max_eq_left (le_trans (min_le_left r c) h)).symm
  · rw [max_eq_left h]
    exact (max_eq_right (le_min h hc)).symm

/-- C1: for every pair of texts A and B, `compute_ncd` produces its score
exactly by the specified algorithm: the combined size is the compressed size
of the byte-level concatenation of A then B with no delimiter (UTF-8 bytes of
`A ++ B` are the bytes of A followed by the bytes of B); when
`max(sizeA, sizeB) > 0` the raw score is `(sizeCombined - min) / max` and
otherwise `0`; and the returned score is the raw score clamped to
`[0, 3/2]` via `max 0 (min rawScore (3/2))`. -/
theorem compute_ncd_follows_algorithm (enc : Backend) (a b : String) :
    utf8Bytes (a ++ b) = utf8Bytes a ++ utf8Bytes b ∧
    (compute_ncd enc a b).size_combined = compressed_size enc (a ++ b) ∧
    (compute_ncd enc a b).score =
      max 0 (min
        (if 0 < max (compressed_size enc a) (compressed_size enc b) then
          ((compressed_size enc (a ++ b) : ℚ) -
            (min (compressed_size enc a) (compressed_size enc b) : ℕ)) /
            (max (compressed_size enc a) (compressed_size enc b) : ℕ)
        else 0) (3 / 2)) := by
  refine ⟨utf8Bytes_append a b, rfl, ?_⟩
  simp only [compute_ncd, gt_iff_lt, Nat.cast_pos]
  rw [clamp_comm _ _ (by norm_num)]

/-- C2: for all texts A and B and any compression backend, the score field of
`compute_ncd` lies in the closed interval `[0, 3/2]` (the Rust constants
`0.0` and `1.5`). -/
theorem compute_ncd_score_bounded (enc : Backend) (a b : String) :
    0 ≤ (compute_ncd enc a b).score ∧ (compute_ncd enc a b).score ≤ 3 / 2 := by
  simp only [compute_ncd]
  exact ⟨le_min (le_max_right _ 0) (by norm_num), min_le_right _ _⟩

/-- C3: when the underlying compressor fails on the input bytes (modelled by
the backend returning `none`), `compressed_size` returns the input's raw byte
length as a fallback.  The result type of `compressed_size` is a plain `ℕ`
(Rust `usize`), so no error is ever propagated past this boundary. -/
theorem compressed_size_fails_soft (enc : Backend) (s : String)
    (h : enc (utf8Bytes s) = none) :
    compressed_size enc s = (utf8Bytes s).length := by
  simp [compressed_size, h]

/-- Witness for C3: a backend that always fails makes `compressed_size` of
"abc" fall back to its raw byte length. -/
theorem compressed_size_fails_soft_witness :
    ((fun _ => none : Backend) (utf8Bytes "abc") = none) ∧
      compressed_size (fun _ => none) "abc" = (utf8Bytes "abc").length :=
  ⟨rfl, compressed_size_fails_soft (fun _ => none) "abc" rfl⟩

/-- C4: `compute_ncd "" ""` has score exactly `0` for every backend, and more
generally, whenever the maximum of the two individual compressed sizes is
zero the score is defined to be `0` by the guard instead of dividing by
zero. -/
theorem compute_ncd_empty_no_div_zero (enc : Backend) :
    (compute_ncd enc "" "").score = 0 ∧
      ∀ a b : String, max (compressed_size enc a) (compressed_size enc b) = 0 →
        (compute_ncd enc a b).score = 0 := by
  constructor
  · have hcomb : ("" ++ "" : String) = "" := rfl
    simp only [compute_ncd, hcomb, min_self, max_self]
    have hz : (if (0:ℚ) < (compressed_size enc "" : ℕ) then
        ((compressed_size enc "" : ℚ) - (compressed_size enc "" : ℕ)) /
          (compressed_size enc "" : ℕ) else 0) = 0 := by
      split <;> simp [sub_self]
    simp only [gt_iff_lt]
    rw [hz]
    norm_num
  · intro a b h
    have h1 : compressed_size enc a = 0 := Nat.le_zero.mp (h ▸ le_max_left _ _)
    have h2 : compressed_size enc b = 0 := Nat.le_zero.mp (h ▸ le_max_right _ _)
    simp only [compute_ncd, h1, h2]
    norm_num

/-- Witness for C4: with a backend that compresses everything to zero bytes,
both the empty pair and a nonempty pair with zero compressed sizes score
`0`. -/
theorem compute_ncd_empty_no_div_zero_witness :
    (compute_ncd (fun _ => some 0) "" "").score = 0 ∧
      (compute_ncd (fun _ => some 0) "x" "y").score = 0 :=
  ⟨(compute_ncd_empty_no_div_zero (fun _ => some 0)).1,
    (compute_ncd_empty_no_div_zero (fun _ => some 0)).2 "x" "y" (by decide)⟩

/-- C5: `compute_ncd` and `ncd_score` are total: for every backend and every
pair of texts (including empty strings) the checked variants — in which an
unguarded division by zero would surface as `none`, the model of an undefined
(`NaN`) value — return `some` of exactly the result the real functions
return.  The division is therefore never taken with a zero divisor and the
score is always a defined value. -/
theorem compute_ncd_total_no_nan (enc : Backend) (a b : String) :
    compute_ncd_checked enc a b = some (compute_ncd enc a b) ∧
      ncd_score_checked enc a b = some (ncd_score enc a b) := by
  have h1 : compute_ncd_checked enc a b = some (compute_ncd enc a b) := by
    simp only [compute_ncd_checked, compute_ncd, divOpt]
    by_cases h : (0:ℚ) < (max (compressed_size enc a) (compressed_size enc b) : ℕ)
    · rw [if_pos h, if_pos h, if_neg (ne_of_gt h)]
      rfl
    · rw [if_neg h, if_neg h]
      rfl
  exact ⟨h1, by simp [ncd_score_checked, ncd_score, h1]⟩

/-- C6: the `raw_size_a`/`raw_size_b` fields of `compute_ncd` equal the exact
UTF-8 byte length of the corresponding input, not its character count: in
particular "café" (4 characters) contributes 5 bytes, and the
"Hello"/"World" pair reports raw sizes 5 and 5, for every backend. -/
theorem raw_sizes_are_utf8_byte_lengths (enc : Backend) (a b : String) :
    (compute_ncd enc a b).raw_size_a = (utf8Bytes a).length ∧
    (compute_ncd enc a b).raw_size_b = (utf8Bytes b).length ∧
    (utf8Bytes "café").length = 5 ∧
    "café".data.length = 4 ∧
    (compute_ncd enc "Hello" "World").raw_size_a = 5 ∧
    (compute_ncd enc "Hello" "World").raw_size_b = 5 :=
  ⟨rfl, rfl, by decide, by decide, rfl, rfl⟩

/-- C7: `compute_ncd` is deterministic: two calls on the same texts whose
backends behave identically on every byte sequence (same compressor at the
same configured level) yield identical results — equal score and equal values
of all five size fields, since the results are equal as structures. -/
theorem compute_ncd_deterministic (enc1 enc2 : Backend) (a b : String)
    (h : ∀ bs, enc1 bs = enc2 bs) :
    compute_ncd enc1 a b = compute_ncd enc2 a b := by
  rw [funext h]

/-- Witness for C7: two syntactically different but extensionally equal
backends give bit-identical results on a concrete pair. -/
theorem compute_ncd_deterministic_witness :
    compute_ncd (fun bs => some bs.length) "x" "y" =
      compute_ncd (fun bs => some (bs ++ []).length) "x" "y" :=
  compute_ncd_deterministic _ _ "x" "y" (fun bs => by simp)

/-- C8: `ncd_score` equals the score field of `compute_ncd` on all inputs;
the two operations have identical semantics. -/
theorem ncd_score_eq_compute_score (enc : Backend) (a b : String) :
    ncd_score enc a b = (compute_ncd enc a b).score := rfl

/-- C9: the computation is order-sensitive: asymmetry is possible, not
forbidden.  There is a backend and texts A, B for which `compute_ncd A B` and
`compute_ncd B A` report different combined compressed sizes, because the
code compresses the concatenation in argument order. -/
theorem order_sensitivity_possible :
    ∃ (enc : Backend) (a b : String),
      (compute_ncd enc a b).size_combined ≠ (compute_ncd enc b a).size_combined :=
  ⟨fun bs => if bs = [97, 98] then some 1 else some 2, "a", "b", by decide⟩

/-- C10: each per-text audit field depends only on its own input: the A-side
fields of `compute_ncd` are unchanged when the B text varies, and the B-side
fields are unchanged when the A text varies. -/
theorem audit_fields_noninterference (enc : Backend) (a a2 b b2 : String) :
    (compute_ncd enc a b).size_a = (compute_ncd enc a b2).size_a ∧
    (compute_ncd enc a b).raw_size_a = (compute_ncd enc a b2).raw_size_a ∧
    (compute_ncd enc a b).size_b = (compute_ncd enc a2 b).size_b ∧
    (compute_ncd enc a b).raw_size_b = (compute_ncd enc a2 b).raw_size_b :=
  ⟨rfl, rfl, rfl, rfl⟩

end LDSI
